import Mathlib

/-!
Shallow Lean embedding of the conversation-intake, coalescing, rate-limiting
and calendar-reconciliation core of the `botwhats` repository
(`app/services/message_processor.py`, `app/services/redis_cache.py`,
`app/jobs/sync_calendar.py`, `app/models/models.py`), together with theorems
settling the frozen behavioural claims about that code.

Conventions of the embedding:
* Python `datetime` values are abstracted to natural numbers (the claims under
  verification never depend on calendar arithmetic), except in the calendar
  sync model where the raw ISO strings are carried unchanged.
* Python floats (`precio_total`, `tiempo_respuesta_promedio_ms`) are modelled
  as exact rationals `ℚ`; the arithmetic the claims mention is exact in the
  source inputs considered.
* `None`-able Python values become `Option`; Python truthiness tests on them
  are modelled explicitly (`pyTruthyStr`, `pyTruthyQ`, ...).
* Fallible external calls (Redis, Chatwoot HTTP, the LLM agent, the DB
  session) keep the error behaviour of the source: calls whose Python wrappers
  swallow their own exceptions are modelled as total functions with an
  explicit success flag, and exceptions that propagate into
  `MessageProcessor._delayed_process` are modelled by an injected fault.
-/

namespace BotWhats

/-! ## Python-semantics helpers -/

/-- Truthiness of an optional Python string (`None` and `""` are falsy). -/
def pyTruthyStr : Option String → Bool
  | none => false
  | some s => s ≠ ""

/-- Truthiness of an optional Python float (`None` and `0.0` are falsy). -/
def pyTruthyQ : Option ℚ → Bool
  | none => false
  | some q => q ≠ 0

/-- Python `a or b` on optional strings (used for `dateTime or date`). -/
def pyOrStr (a b : Option String) : Option String :=
  if pyTruthyStr a then a else b

/-- Lower-case a string character-wise, as Python `str.lower()` does on the
ASCII inputs exercised here (`Char.toLower` only folds ASCII letters; the
non-ASCII letters appearing in the repository's keyword/label data are already
lower-case). -/
def strLower (s : String) : String :=
  String.mk (s.toList.map Char.toLower)

/-- Decide whether `needle` occurs as a contiguous infix of `hay`, the
semantics of Python's `needle in hay` on strings. -/
def listContainsSub (needle : List Char) : List Char → Bool
  | [] => needle.isEmpty
  | c :: t => needle.isPrefixOf (c :: t) || listContainsSub needle t

/-- String version of `listContainsSub`: Python `needle in hay`. -/
def containsSub (needle hay : String) : Bool :=
  listContainsSub needle.toList hay.toList

/-- Python `str.strip()` on a character list: drop leading and trailing
whitespace. -/
def listTrim (l : List Char) : List Char :=
  ((l.dropWhile Char.isWhitespace).reverse.dropWhile Char.isWhitespace).reverse

/-- Python `str.strip()`. -/
def pyStrip (s : String) : String :=
  String.mk (listTrim s.toList)

/-- Python `str.split(sep)` for a one-character separator, on character
lists. -/
def splitOnChar (sep : Char) : List Char → List (List Char)
  | [] => [[]]
  | c :: t =>
      if c = sep then [] :: splitOnChar sep t
      else
        match splitOnChar sep t with
        | h :: r => (c :: h) :: r
        | [] => [[c]]

/-! ## ConversacionChatwoot rows and their operations

Embeds the `ConversacionChatwoot` model (`app/models/models.py`) restricted to
the fields the intake pipeline reads or writes, and the three write
operations of `MessageProcessor`: `_get_or_create_conversation`,
`_pause_bot_for_conversation` and `_reactivate_bot_for_conversation`.
Each Python operation is a single SQL statement inside one committed session,
so each is embedded as one pure record transform. -/

structure ConversacionChatwoot where
  chatwoot_conversation_id : ℕ
  chatwoot_contact_id : Option ℕ
  telefono_cliente : String
  nombre_cliente : Option String
  bot_activo : Bool
  motivo_pausa : Option String
  pausado_por : Option String
  pausado_en : Option ℕ
  ultimo_mensaje_at : Option ℕ
  deriving Repr, DecidableEq

/-- Row created by `_get_or_create_conversation` when no record exists
(model defaults: `bot_activo=True`, pause columns `NULL`). -/
def createConversation (conversation_id : ℕ) (phone_number : String)
    (contact_name : Option String) (contact_id : Option ℕ) (now : ℕ) :
    ConversacionChatwoot :=
  { chatwoot_conversation_id := conversation_id
    chatwoot_contact_id := contact_id
    telefono_cliente := phone_number
    nombre_cliente := contact_name
    bot_activo := true
    motivo_pausa := none
    pausado_por := none
    pausado_en := none
    ultimo_mensaje_at := some now }

/-- Update performed by `_get_or_create_conversation` on an existing row:
refresh `ultimo_mensaje_at` and backfill `nombre_cliente` only when a contact
name is given and the stored name is falsy. -/
def touchConversation (conv : ConversacionChatwoot) (contact_name : Option String)
    (now : ℕ) : ConversacionChatwoot :=
  let conv := { conv with ultimo_mensaje_at := some now }
  if pyTruthyStr contact_name && !pyTruthyStr conv.nombre_cliente then
    { conv with nombre_cliente := contact_name }
  else
    conv

/-- Single `UPDATE ... SET bot_activo=False, motivo_pausa=?, pausado_por=?,
pausado_en=now()` executed by `_pause_bot_for_conversation`. -/
def pauseConversation (conv : ConversacionChatwoot) (reason : String)
    (paused_by : Option String) (now : ℕ) : ConversacionChatwoot :=
  { conv with
    bot_activo := false
    motivo_pausa := some reason
    pausado_por := paused_by
    pausado_en := some now }

/-- Single `UPDATE ... SET bot_activo=True, motivo_pausa=NULL, pausado_por=NULL,
pausado_en=NULL` executed by `_reactivate_bot_for_conversation`. -/
def reactivateConversation (conv : ConversacionChatwoot) : ConversacionChatwoot :=
  { conv with
    bot_activo := true
    motivo_pausa := none
    pausado_por := none
    pausado_en := none }

/-- Pause-field invariant of the data model: the three pause columns are all
`NULL` exactly when the bot is active. -/
def pauseFieldsInvariant (conv : ConversacionChatwoot) : Prop :=
  (conv.motivo_pausa = none ∧ conv.pausado_por = none ∧ conv.pausado_en = none)
    ↔ conv.bot_activo = true

instance (conv : ConversacionChatwoot) : Decidable (pauseFieldsInvariant conv) := by
  unfold pauseFieldsInvariant
  infer_instance

/-! ## EstadisticasBot rows and `_update_statistics`

Embeds the statistics row (`app/models/models.py`) and the read-modify-write
performed by `MessageProcessor._update_statistics` on the row for the current
day.  The Python function swallows every exception internally
(`except Exception: logger.error(...)`), so a failing DB session leaves the
row unchanged; this is modelled by the `dbOk` flag.  A `ZeroDivisionError`
(truthy latency sample and truthy stored average with a post-increment
responded count of zero) aborts the session before commit, likewise leaving
the stored row unchanged. -/

structure EstadisticasBot where
  mensajes_recibidos : ℕ
  mensajes_respondidos : ℕ
  citas_creadas : ℕ
  citas_modificadas : ℕ
  citas_canceladas : ℕ
  transferencias_humano : ℕ
  errores : ℕ
  tiempo_respuesta_promedio_ms : Option ℚ
  deriving Repr, DecidableEq

/-- Increment arguments of `_update_statistics` (all default to zero in the
source; `response_time_ms` defaults to `None`). -/
structure StatsDelta where
  mensajes_recibidos : ℕ := 0
  mensajes_respondidos : ℕ := 0
  citas_creadas : ℕ := 0
  citas_modificadas : ℕ := 0
  citas_canceladas : ℕ := 0
  transferencias_humano : ℕ := 0
  errores : ℕ := 0
  response_time_ms : Option ℚ := none
  deriving Repr, DecidableEq

/-- Transform of the current day's statistics row performed by
`MessageProcessor._update_statistics`; `row = none` means no row exists for
today yet (the source then inserts a fresh one). -/
def update_statistics (dbOk : Bool) (d : StatsDelta) (row : Option EstadisticasBot) :
    Option EstadisticasBot :=
  if !dbOk then row
  else
    match row with
    | some stats =>
        let stats' : EstadisticasBot :=
          { stats with
            mensajes_recibidos := stats.mensajes_recibidos + d.mensajes_recibidos
            mensajes_respondidos := stats.mensajes_respondidos + d.mensajes_respondidos
            citas_creadas := stats.citas_creadas + d.citas_creadas
            citas_modificadas := stats.citas_modificadas + d.citas_modificadas
            citas_canceladas := stats.citas_canceladas + d.citas_canceladas
            transferencias_humano := stats.transferencias_humano + d.transferencias_humano
            errores := stats.errores + d.errores }
        if pyTruthyQ d.response_time_ms then
          if pyTruthyQ stats.tiempo_respuesta_promedio_ms then
            -- running average over the post-increment responded count
            let total : ℕ := stats'.mensajes_respondidos
            if total = 0 then
              -- ZeroDivisionError: caught by the outer handler, nothing committed
              row
            else
              some { stats' with
                tiempo_respuesta_promedio_ms :=
                  some ((stats.tiempo_respuesta_promedio_ms.getD 0 * ((total : ℚ) - 1)
                    + d.response_time_ms.getD 0) / (total : ℚ)) }
          else
            some { stats' with
              tiempo_respuesta_promedio_ms := d.response_time_ms }
        else
          some stats'
    | none =>
        some
          { mensajes_recibidos := d.mensajes_recibidos
            mensajes_respondidos := d.mensajes_respondidos
            citas_creadas := d.citas_creadas
            citas_modificadas := d.citas_modificadas
            citas_canceladas := d.citas_canceladas
            transferencias_humano := d.transferencias_humano
            errores := d.errores
            tiempo_respuesta_promedio_ms := d.response_time_ms }

/-! ## Redis rate limiter (`RedisCache.check_rate_limit`)

The counter for one phone number is a Redis string key with a TTL.  Time is a
natural-number clock; a stored pair `(count, expiresAt)` is visible to `GET`
at time `t` exactly when `t < expiresAt` (the key has not yet expired).  The
source reads the counter with `GET`, rejects without writing when the count
has reached the limit, and otherwise pipelines `INCR` + `EXPIRE window`. -/

/-- State of the single rate-limit key `rate_limit:{phone}`: the stored
counter value together with its absolute expiry time, or `none` when the key
was never written. -/
structure RateState where
  counter : Option (ℕ × ℕ)
  deriving Repr, DecidableEq

/-- Value `GET` returns at time `t` (`0` when the key is absent or expired,
matching `int(count) if count else 0`). -/
def rateValue (st : RateState) (t : ℕ) : ℕ :=
  match st.counter with
  | some (c, e) => if t < e then c else 0
  | none => 0

/-- Embeds `RedisCache.check_rate_limit` at time `t`: returns
`(is_allowed, current_count)` and the successor key state.  `INCR` on an
absent or expired key creates it at `1`; `EXPIRE` refreshes the TTL to
`window_seconds` from now. -/
def check_rate_limit (st : RateState) (t : ℕ) (max_messages window_seconds : ℕ) :
    (Bool × ℕ) × RateState :=
  let current_count := rateValue st t
  if max_messages ≤ current_count then
    ((false, current_count), st)
  else
    ((true, current_count + 1), ⟨some (current_count + 1, t + window_seconds)⟩)

/-- Run a sequence of timestamped calls against the limiter, collecting the
returned `(is_allowed, current_count)` pairs. -/
def rateRun (maxM window : ℕ) : List ℕ → RateState → List (Bool × ℕ) × RateState
  | [], st => ([], st)
  | t :: ts, st =>
      let (r, st') := check_rate_limit st t maxM window
      let (rs, st'') := rateRun maxM window ts st'
      (r :: rs, st'')

/-! ## MessageProcessor: coalescing state for one conversation

Embeds the per-conversation observable state touched by
`MessageProcessor._handle_message_created` (the intake path) and
`MessageProcessor._delayed_process` (the debounce firing), for a single
conversation id:

* `pending` — the Redis list `pending_messages:{id}` (contents in arrival
  order; the per-entry timestamp/message-id metadata plays no role in the
  verified claims and is dropped);
* `timerGen` — the debounce-timer registry `_processing_tasks`: each call to
  `_schedule_processing` cancels the previously stored task and stores a new
  one, so the tasks are numbered by generation and a task whose generation is
  no longer current was cancelled during its `asyncio.sleep`
  (its `asyncio.CancelledError` handler does nothing);
* `lock` — existence of the Redis key `processing_lock:{id}` (`SET NX`);
* `record` — the `ConversacionChatwoot` row for this conversation, if any;
* `context` — the Redis conversation context;
* `stats` — today's `EstadisticasBot` row;
* `agentCalls` / `sent` — logs of the merged utterances passed to
  `agent.process_message` and of the messages accepted by
  `chatwoot_service.send_message`;
* `extractions` — count of `_extract_message_content` invocations
  (each may download/transcribe attachments, so reaching it is observable).
-/

/-- Conversation-context entry `{"role": ..., "content": ...}`. -/
structure CtxMsg where
  role : String
  content : String
  deriving Repr, DecidableEq

/-- Python `l[-n:]`: the last `n` entries of a list. -/
def lastN (n : ℕ) (l : List CtxMsg) : List CtxMsg :=
  l.drop (l.length - n)

/-- Observable per-conversation state of the processor. -/
structure ProcState where
  record : Option ConversacionChatwoot
  pending : List String
  timerGen : ℕ
  lock : Bool
  context : Option (List CtxMsg)
  stats : Option EstadisticasBot
  agentCalls : List String
  sent : List String
  extractions : ℕ
  deriving Repr, DecidableEq

/-- State with no record, empty buffers and no timer. -/
def initialProcState : ProcState :=
  { record := none
    pending := []
    timerGen := 0
    lock := false
    context := none
    stats := none
    agentCalls := []
    sent := []
    extractions := 0 }

/-- Environment of one run: outcome of the external calls a step performs.
`sendOk = false` models an HTTP error raised inside
`ChatwootService.send_message` (caught there, which returns `None`);
`statsOk = false` models a DB error raised inside `_update_statistics`
(caught there); `frameFault = true` models an exception that propagates into
the body of `_delayed_process` before the agent call (e.g.
`get_salon_agent()` failing or a malformed buffered entry), which only the
`try/except/finally` of `_delayed_process` handles.  `latency` is the
wall-clock `processing_time` the source measures (message_processor.py:233);
it is never committed, because the statistics call that would store it
raises `TypeError` (see `fire`). -/
structure ProcEnv where
  reply : String := "ok"
  latency : ℚ := 1
  sendOk : Bool := true
  statsOk : Bool := true
  frameFault : Bool := false

/-- Normalized inbound `message_created` webhook event, with the outcomes of
the two external oracles the handler consults (`check_rate_limit` and
`_extract_message_content`) supplied as fields. -/
structure InboundMessage where
  messageType : String := "incoming"
  privateNote : Bool := false
  senderType : Option String := none
  senderName : Option String := none
  conversationId : ℕ := 1
  phone : String := "5550000000"
  contactName : Option String := none
  contactId : Option ℕ := none
  arrivedAt : ℕ := 0
  rateAllowed : Bool := true
  extracted : Option String := none

/-- Python `name or default` for optional strings. -/
def pyStrOr (o : Option String) (d : String) : String :=
  match o with
  | some s => if s = "" then d else s
  | none => d

/-- Embeds `MessageProcessor._check_human_keywords`: the stored keywords are
matched verbatim against the lower-cased message by substring containment. -/
def checkHumanKeywords (keywords : List String) (message : String) : Bool :=
  keywords.any fun keyword => containsSub keyword (strLower message)

/-- Fixed notice sent on a rate-limit rejection. -/
def rateLimitNotice : String :=
  "Has enviado muchos mensajes. Por favor espera un momento antes de continuar."

/-- Fixed acknowledgment sent on a human-handoff keyword. -/
def handoffAck : String :=
  "Entendido. Un agente humano te atenderá pronto. Por favor espera."

/-- Embeds `MessageProcessor._pause_bot_for_conversation`: one UPDATE of the
pause columns (a no-op when no row matches the conversation id), clearing the
cached context, then a human-transfer statistics increment. -/
def pauseBot (env : ProcEnv) (reason : String) (paused_by : Option String)
    (now : ℕ) (s : ProcState) : ProcState :=
  { s with
    record := s.record.map fun c => pauseConversation c reason paused_by now
    context := none
    stats := update_statistics env.statsOk { transferencias_humano := 1 } s.stats }

/-- Embeds `MessageProcessor._reactivate_bot_for_conversation`. -/
def reactivateBot (s : ProcState) : ProcState :=
  { s with
    record := s.record.map reactivateConversation
    context := none }

/-- Embeds `MessageProcessor._get_or_create_conversation` as used by the
intake handler: touch the existing row or create a fresh one. -/
def upsertConversation (m : InboundMessage) (s : ProcState) :
    ConversacionChatwoot :=
  match s.record with
  | some c => touchConversation c m.contactName m.arrivedAt
  | none =>
      createConversation m.conversationId m.phone m.contactName m.contactId
        m.arrivedAt

/-- Embeds `MessageProcessor._handle_message_created` for one conversation:
skip outgoing and private events; pause on a human-agent message; upsert the
conversation record; stop when the bot is paused; rate-limit; extract
content; divert to human handoff on a keyword; otherwise buffer the content
and (re)schedule the debounce timer, cancelling the previous one. -/
def handleMessage (env : ProcEnv) (keywords : List String) (m : InboundMessage)
    (s : ProcState) : ProcState :=
  if m.messageType ≠ "incoming" then s
  else if m.privateNote then s
  else if m.senderType = some "user" then
    pauseBot env "Agente humano respondió" (some (pyStrOr m.senderName "Agente"))
      m.arrivedAt s
  else
    let record := upsertConversation m s
    let s := { s with record := some record }
    if record.bot_activo = false then s
    else if m.rateAllowed = false then
      { s with sent := s.sent ++ [rateLimitNotice] }
    else
      let s := { s with extractions := s.extractions + 1 }
      if pyTruthyStr m.extracted = false then s
      else
        let content := m.extracted.getD ""
        if checkHumanKeywords keywords content then
          let s := pauseBot env "Cliente solicitó agente humano" none m.arrivedAt s
          { s with sent := s.sent ++ [handoffAck] }
        else
          { s with
            pending := s.pending ++ [content]
            timerGen := s.timerGen + 1 }

/-- Embeds `MessageProcessor._delayed_process` for the task of generation
`gen`, run after its `asyncio.sleep` completes.  A task whose generation is
stale was cancelled during the sleep (no effect); a held lock abandons the
firing before entering the guarded block (no release, no effect); otherwise
the buffered batch is claimed and processed.  The Processing body can never
complete normally: its statistics call
(`self._update_statistics(messages_received=..., messages_responded=...)`,
message_processor.py:248-252) passes keyword arguments `_update_statistics`
does not declare (the parameters are `mensajes_recibidos` /
`mensajes_respondidos`), so after the agent call, the send, and the context
write it raises `TypeError` unconditionally; the measured latency is never
stored.  That `TypeError` — like any exception injected earlier in the block
(`frameFault`) — is handled by the block's `try/except/finally`: the
`finally` releases the lock and the `except Exception` branch increments
the daily error statistic. -/
def fire (env : ProcEnv) (gen : ℕ) (s : ProcState) : ProcState :=
  if gen ≠ s.timerGen then s
  else if s.lock then s
  else
    let s1 := { s with lock := true }
    if s1.pending.isEmpty then { s1 with lock := false }
    else
      let pendingMsgs := s1.pending
      let s2 := { s1 with pending := [] }
      if env.frameFault then
        -- exception propagates: finally releases the lock, except counts it
        let s3 := { s2 with lock := false }
        { s3 with stats := update_statistics env.statsOk { errores := 1 } s3.stats }
      else
        let combined := String.intercalate " " pendingMsgs
        let s3 := { s2 with agentCalls := s2.agentCalls ++ [combined] }
        let s4 :=
          if env.sendOk then { s3 with sent := s3.sent ++ [env.reply] } else s3
        let newContext :=
          lastN 20 ((s4.context.getD []) ++
            [⟨"user", combined⟩, ⟨"assistant", env.reply⟩])
        -- the statistics call raises TypeError (mismatched keyword
        -- arguments, message_processor.py:248-252): the batch counters and
        -- latency are never written; finally releases the lock, except
        -- increments the error statistic
        let s5 := { s4 with context := some newContext, lock := false }
        { s5 with
          stats := update_statistics env.statsOk { errores := 1 } s5.stats }

/-! ## Two concurrent debounce firings for the same conversation

For the mutual-exclusion claim, `_delayed_process` (after its sleep) is
refined into one micro-step per awaited call, and two firings for the same
conversation id are interleaved by an arbitrary scheduler.  Each constructor
of `FLocal` is the program counter of one firing, standing just before the
corresponding statement of the source; `msgs` is the local variable `pending`
read from Redis.  The shared state is the per-conversation Redis/log state.
After the context write, the statistics call raises `TypeError`
synchronously (mismatched keyword arguments, message_processor.py:248-252;
see `fire`), so the next awaited operations are the `finally` lock release
followed by the `except` branch's `_update_statistics(errores=1)` write
(`errorStat`) — by which time the lock is already free and the other firing
may re-acquire it. -/

/-- Shared state (Redis keys plus external-call logs) seen by both firings. -/
structure FShared where
  lock : Bool
  pending : List String
  agentCalls : List String
  sent : List String
  context : Option (List CtxMsg)
  stats : Option EstadisticasBot
  deriving Repr, DecidableEq

/-- Program counter of one firing of `_delayed_process` after its sleep.
`doneAbandoned` is the `return` when the lock is held, `doneEmpty` the
`return` when the claimed buffer is empty, `doneProcessed` completion of a
processing pass (which always ends through the `TypeError` handler, see
`fire`); `errorStat` is the `except` branch's error-statistic write, reached
after the `finally` has released the lock. -/
inductive FLocal where
  | start
  | readPending
  | clearPending (msgs : List String)
  | callAgent (msgs : List String)
  | sendReply (msgs : List String)
  | ctxUpdate (msgs : List String)
  | releaseLock (msgs : List String)
  | errorStat (msgs : List String)
  | doneAbandoned
  | doneEmpty
  | doneProcessed
  deriving Repr, DecidableEq

/-- Micro-step of one firing: executes the statement at the firing's program
counter against the shared state.  Done states are inert.  The `latency`
parameter is the measured `processing_time` of the source; no transition
stores it, because the statistics call that would raises `TypeError` before
any write (message_processor.py:248-252): after `ctxUpdate` the firing
proceeds directly to the `finally` lock release and then, on a non-empty
batch, to the `except` branch's error-statistic write. -/
def stepFiring (reply : String) (latency : ℚ) (sh : FShared) :
    FLocal → FShared × FLocal
  | .start =>
      if sh.lock then (sh, .doneAbandoned)
      else ({ sh with lock := true }, .readPending)
  | .readPending =>
      if sh.pending.isEmpty then (sh, .releaseLock [])
      else (sh, .clearPending sh.pending)
  | .clearPending msgs => ({ sh with pending := [] }, .callAgent msgs)
  | .callAgent msgs =>
      ({ sh with agentCalls := sh.agentCalls ++ [String.intercalate " " msgs] },
        .sendReply msgs)
  | .sendReply msgs => ({ sh with sent := sh.sent ++ [reply] }, .ctxUpdate msgs)
  | .ctxUpdate msgs =>
      ({ sh with
          context :=
            some (lastN 20 ((sh.context.getD []) ++
              [⟨"user", String.intercalate " " msgs⟩, ⟨"assistant", reply⟩])) },
        .releaseLock msgs)
  | .releaseLock msgs =>
      ({ sh with lock := false },
        if msgs.isEmpty then .doneEmpty else .errorStat msgs)
  | .errorStat msgs =>
      ({ sh with stats := update_statistics true { errores := 1 } sh.stats },
        .doneProcessed)
  | .doneAbandoned => (sh, .doneAbandoned)
  | .doneEmpty => (sh, .doneEmpty)
  | .doneProcessed => (sh, .doneProcessed)

/-- Whether a firing has returned. -/
def FLocal.isDone : FLocal → Bool
  | .doneAbandoned => true
  | .doneEmpty => true
  | .doneProcessed => true
  | _ => false

/-- Global state: shared state plus the two firings' program counters. -/
structure FGlobal where
  sh : FShared
  a : FLocal
  b : FLocal
  deriving Repr, DecidableEq

/-- Scheduler step: `true` advances firing `a`, `false` advances firing `b`. -/
def stepG (reply : String) (latency : ℚ) (choice : Bool) (g : FGlobal) : FGlobal :=
  if choice then
    let (sh', a') := stepFiring reply latency g.sh g.a
    { g with sh := sh', a := a' }
  else
    let (sh', b') := stepFiring reply latency g.sh g.b
    { g with sh := sh', b := b' }

/-- Run the two firings under an arbitrary finite schedule. -/
def runSched (reply : String) (latency : ℚ) : List Bool → FGlobal → FGlobal
  | [], g => g
  | c :: cs, g => runSched reply latency cs (stepG reply latency c g)

/-- Initial global state: both firings are past their sleep and about to try
the lock, the buffer holds the batch `P`, the lock is free. -/
def initFGlobal (P : List String) (ctx0 : Option (List CtxMsg))
    (st0 : Option EstadisticasBot) : FGlobal :=
  { sh := { lock := false, pending := P, agentCalls := [], sent := [],
            context := ctx0, stats := st0 }
    a := .start
    b := .start }

/-- Still idle, or abandoned at the lock. -/
def idleOrAbandoned (l : FLocal) : Prop :=
  l = .start ∨ l = .doneAbandoned

/-- Shape of the lock holder's local state while it is inside the guarded
block, together with the shared facts its progress has established. -/
def holderMid (P : List String) (reply : String) (sh : FShared) (l : FLocal) :
    Prop :=
  (l = .readPending ∧ sh.pending = P ∧ sh.agentCalls = [] ∧ sh.sent = [])
  ∨ (l = .clearPending P ∧ sh.pending = P ∧ sh.agentCalls = [] ∧ sh.sent = [])
  ∨ (l = .callAgent P ∧ sh.pending = [] ∧ sh.agentCalls = [] ∧ sh.sent = [])
  ∨ (l = .sendReply P ∧ sh.pending = [] ∧
      sh.agentCalls = [String.intercalate " " P] ∧ sh.sent = [])
  ∨ ((l = .ctxUpdate P ∨ l = .releaseLock P) ∧
      sh.pending = [] ∧ sh.agentCalls = [String.intercalate " " P] ∧
      sh.sent = [reply])

/-- Initial configuration of the two-firing system. -/
def raceStartState (P : List String) (sh : FShared) (a b : FLocal) : Prop :=
  a = .start ∧ b = .start ∧ sh.lock = false ∧ sh.pending = P ∧
    sh.agentCalls = [] ∧ sh.sent = []

/-- Past-release program counters of the firing that processed the batch:
it is either about to write the error statistic (the lock is already free)
or done. -/
def pastRelease (P : List String) (h : FLocal) : Prop :=
  h = .errorStat P ∨ h = .doneProcessed

/-- Reachable configurations in which firing `h` won the lock race and `o`
lost it (or has not tried yet): `h` is inside the guarded block, or past the
lock release (writing the error statistic or done) while `o` is idle,
draining the empty buffer, or done. -/
def raceHolder (P : List String) (reply : String) (sh : FShared)
    (h o : FLocal) : Prop :=
  (sh.lock = true ∧ holderMid P reply sh h ∧ idleOrAbandoned o)
  ∨ (sh.lock = false ∧ sh.pending = [] ∧
      sh.agentCalls = [String.intercalate " " P] ∧ sh.sent = [reply] ∧
      pastRelease P h ∧ idleOrAbandoned o)
  ∨ (sh.lock = true ∧ sh.pending = [] ∧
      sh.agentCalls = [String.intercalate " " P] ∧ sh.sent = [reply] ∧
      pastRelease P h ∧ (o = .readPending ∨ o = .releaseLock []))
  ∨ (sh.lock = false ∧ sh.pending = [] ∧
      sh.agentCalls = [String.intercalate " " P] ∧ sh.sent = [reply] ∧
      pastRelease P h ∧ (o = .doneAbandoned ∨ o = .doneEmpty))

/-- Inductive invariant of the two-firing system started from
`initFGlobal P _ _` with `P ≠ []`. -/
def raceInv (P : List String) (reply : String) (g : FGlobal) : Prop :=
  raceStartState P g.sh g.a g.b
  ∨ raceHolder P reply g.sh g.a g.b
  ∨ raceHolder P reply g.sh g.b g.a

/-- Swap the two firings' program counters. -/
def FGlobal.swap (g : FGlobal) : FGlobal := ⟨g.sh, g.b, g.a⟩

/-! ## Calendar reconciliation (`app/jobs/sync_calendar.py`)

The three `re.search` patterns of `create_appointment_from_event` are
specialised backtracking matchers over `List Char`:

* `(?:Teléfono|Tel|Phone):\s*(\+?[\d\s-]+)` (case-insensitive),
* `(?:Precio|Price|Total):\s*\$?([\d,.]+)` (case-insensitive),
* `Estilista:\s*(.+?)(?:\n|$)` (case-insensitive).

Each scans left to right for a label followed by `:`; at a match position the
greedy `\s*` backtracks from its maximal extent (whitespace is also matched
by `[\d\s-]`, so the phone capture can absorb backtracked whitespace exactly
as the Python engine does).  The label alternatives of one pattern are
mutually exclusive at any position, so trying them in order and advancing on
failure agrees with the engine's backtracking.  Datetime strings are carried
verbatim (ISO validation and timezone conversion are not modelled; the
claims under verification only exercise well-formed timed events). -/

/-- Character class `[\d\s-]` of the phone capture. -/
def isPhoneChar (c : Char) : Bool :=
  c.isDigit || c.isWhitespace || c = '-'

/-- Character class `[\d,.]` of the price capture. -/
def isPriceChar (c : Char) : Bool :=
  c.isDigit || c = ',' || c = '.'

/-- Match `\+?[\d\s-]+` greedily at the start of `rest` (the capture group of
the phone pattern, `+` included when present). -/
def tryPhoneAt (rest : List Char) : Option (List Char) :=
  match rest with
  | '+' :: r =>
      let run := r.takeWhile isPhoneChar
      if run.isEmpty then none else some ('+' :: run)
  | r =>
      let run := r.takeWhile isPhoneChar
      if run.isEmpty then none else some run

/-- Backtrack the phone pattern's `\s*` from `j` consumed whitespace
characters down to zero. -/
def phoneTailGo (l : List Char) : ℕ → Option (List Char)
  | 0 => tryPhoneAt l
  | j + 1 => (tryPhoneAt (l.drop (j + 1))).orElse fun _ => phoneTailGo l j

/-- Match `\s*(\+?[\d\s-]+)` against `l`, returning the capture. -/
def phoneTail (l : List Char) : Option (List Char) :=
  phoneTailGo l (l.takeWhile Char.isWhitespace).length

/-- Match `\$?([\d,.]+)` at the start of `rest` (the `$` is outside the
capture). -/
def tryPriceAt (rest : List Char) : Option (List Char) :=
  match rest with
  | '$' :: r =>
      let run := r.takeWhile isPriceChar
      if run.isEmpty then none else some run
  | r =>
      let run := r.takeWhile isPriceChar
      if run.isEmpty then none else some run

/-- Backtrack the price pattern's `\s*`. -/
def priceTailGo (l : List Char) : ℕ → Option (List Char)
  | 0 => tryPriceAt l
  | j + 1 => (tryPriceAt (l.drop (j + 1))).orElse fun _ => priceTailGo l j

/-- Match `\s*\$?([\d,.]+)` against `l`, returning the capture. -/
def priceTail (l : List Char) : Option (List Char) :=
  priceTailGo l (l.takeWhile Char.isWhitespace).length

/-- Match `(.+?)(?:\n|$)` at the start of `rest`: at least one non-newline
character, up to the first newline or the end. -/
def tryStylistAt (rest : List Char) : Option (List Char) :=
  match rest with
  | [] => none
  | c :: _ => if c = '\n' then none else some (rest.takeWhile fun d => d ≠ '\n')

/-- Backtrack the stylist pattern's `\s*`. -/
def stylistTailGo (l : List Char) : ℕ → Option (List Char)
  | 0 => tryStylistAt l
  | j + 1 => (tryStylistAt (l.drop (j + 1))).orElse fun _ => stylistTailGo l j

/-- Match `\s*(.+?)(?:\n|$)` against `l`, returning the capture. -/
def stylistTail (l : List Char) : Option (List Char) :=
  stylistTailGo l (l.takeWhile Char.isWhitespace).length

/-- When the lower-cased text starts with `label ++ ":"`, return the rest of
the original text. -/
def matchLabelColon (label : List Char) (text : List Char) : Option (List Char) :=
  let n := label.length
  if (text.take (n + 1)).map Char.toLower = label ++ [':'] then
    some (text.drop (n + 1))
  else none

/-- Try each label alternative, in the pattern's order, at this position. -/
def firstLabelTail (labels : List (List Char)) (text : List Char) :
    Option (List Char) :=
  match labels with
  | [] => none
  | l :: ls => (matchLabelColon l text).orElse fun _ => firstLabelTail ls text

/-- Scan for the phone pattern, returning the capture of its first match. -/
def searchPhone : List Char → Option (List Char)
  | [] => none
  | c :: t =>
      match firstLabelTail ["teléfono".toList, "tel".toList, "phone".toList]
          (c :: t) with
      | some rest =>
          match phoneTail rest with
          | some cap => some cap
          | none => searchPhone t
      | none => searchPhone t

/-- Scan for the price pattern, returning the capture of its first match. -/
def searchPrice : List Char → Option (List Char)
  | [] => none
  | c :: t =>
      match firstLabelTail ["precio".toList, "price".toList, "total".toList]
          (c :: t) with
      | some rest =>
          match priceTail rest with
          | some cap => some cap
          | none => searchPrice t
      | none => searchPrice t

/-- Scan for the stylist pattern, returning the capture of its first match. -/
def searchStylist : List Char → Option (List Char)
  | [] => none
  | c :: t =>
      match firstLabelTail ["estilista".toList] (c :: t) with
      | some rest =>
          match stylistTail rest with
          | some cap => some cap
          | none => searchStylist t
      | none => searchStylist t

/-- Value of a digit run (the capture is digits and dots only, so digits are
ASCII). -/
def natOfDigits (l : List Char) : ℕ :=
  l.foldl (fun n c => 10 * n + (c.toNat - 48)) 0

/-- Python `float()` restricted to the strings that can reach it here (digits
and at most one dot after the commas are removed); `none` models the
`ValueError` on `""`, `"."` or multiple dots, which the enclosing
`except Exception` of `create_appointment_from_event` turns into `False`. -/
def floatParse (l : List Char) : Option ℚ :=
  match splitOnChar '.' l with
  | [ip] => if ip.isEmpty then none else some (natOfDigits ip)
  | [ip, fp] =>
      if ip.isEmpty && fp.isEmpty then none
      else some ((natOfDigits ip : ℚ) + (natOfDigits fp : ℚ) / (10 : ℚ) ^ fp.length)
  | _ => none

/-- Index of the last occurrence of `sep` in `s`, if any. -/
def lastMatchIdx (sep s : List Char) : Option ℕ :=
  ((List.range (s.length + 1)).filter fun i => sep.isPrefixOf (s.drop i)).getLast?

/-- Python `s.rsplit(sep, 1)` when `sep` occurs in `s` (`none` otherwise):
split at the last occurrence. -/
def pyRSplitOnce (sep s : String) : Option (String × String) :=
  match lastMatchIdx sep.toList s.toList with
  | some i =>
      some (String.mk (s.toList.take i),
        String.mk (s.toList.drop (i + sep.toList.length)))
  | none => none

/-- Google Calendar `start`/`end` payload: `dateTime` for timed events,
`date` for whole-day events. -/
structure GCalTime where
  dateTime : Option String := none
  date : Option String := none
  deriving Repr, DecidableEq

/-- Google Calendar event restricted to the fields the job reads; `summary`
and `description` carry the `event.get(..., "")` defaults. -/
structure GCalEvent where
  id : Option String := none
  summary : String := ""
  description : String := ""
  startTime : GCalTime := {}
  endTime : GCalTime := {}
  status : Option String := none
  deriving Repr, DecidableEq

/-- Appointment row (`Cita`) restricted to the fields the sync job reads or
writes; `inicio`/`fin` carry the event's ISO strings verbatim. -/
structure Cita where
  nombre_cliente : String
  telefono_cliente : String
  inicio : String
  fin : String
  id_evento_google : Option String
  servicios : List String
  precio_total : ℚ
  estilista_id : Option ℕ
  estado : String
  notas : Option String
  deriving Repr, DecidableEq

/-- Stylist row restricted to the fields the lookup reads. -/
structure Estilista where
  id : ℕ
  nombre : String
  activo : Bool
  deriving Repr, DecidableEq

/-- Lookup `Estilista.nombre.ilike(f"%{nombre}%")` among active stylists with
`scalar_one_or_none`: the outer `none` is the `MultipleResultsFound`
exception raised when more than one row matches. -/
def findStylist (stylists : List Estilista) (name : String) :
    Option (Option ℕ) :=
  match stylists.filter fun st =>
      st.activo && containsSub (strLower name) (strLower st.nombre) with
  | [] => some none
  | [st] => some (some st.id)
  | _ => none

/-- Embeds `create_appointment_from_event`: `none` models `return False`
(missing or whole-day times, or an exception caught by the handler); `some`
is the appointment added to the session. -/
def create_appointment_from_event (stylists : List Estilista) (e : GCalEvent) :
    Option Cita :=
  let start_str := pyOrStr e.startTime.dateTime e.startTime.date
  let end_str := pyOrStr e.endTime.dateTime e.endTime.date
  if !pyTruthyStr start_str || !pyTruthyStr end_str then none
  else
    let start_s := start_str.getD ""
    let end_s := end_str.getD ""
    if !containsSub "T" start_s then none
    else
      let parsed :=
        match pyRSplitOnce " - " e.summary with
        | some (services_part, name_part) =>
            ((splitOnChar ',' services_part.toList).map
                (fun l => String.mk (listTrim l)),
              pyStrip name_part)
        | none => ([e.summary], "Cliente externo")
      let servicios := parsed.1
      let nombre_cliente := parsed.2
      let telefono_cliente :=
        if e.description = "" then ""
        else
          match searchPhone e.description.toList with
          | some cap =>
              String.mk (cap.filter fun c => !(c.isWhitespace || c = '-'))
          | none => ""
      let precioStep : Option ℚ :=
        if e.description = "" then some 0
        else
          match searchPrice e.description.toList with
          | some cap => floatParse (cap.filter fun c => c ≠ ',')
          | none => some 0
      match precioStep with
      | none => none
      | some precio_total =>
          let estilista_nombre : Option String :=
            if e.description = "" then none
            else (searchStylist e.description.toList).map fun cap =>
              String.mk (listTrim cap)
          let estilistaStep : Option (Option ℕ) :=
            match estilista_nombre with
            | some nm =>
                if nm ≠ "" ∧ nm ≠ "Por asignar" then findStylist stylists nm
                else some none
            | none => some none
          match estilistaStep with
          | none => none
          | some estilista_id =>
              some
                { nombre_cliente := nombre_cliente
                  telefono_cliente :=
                    if telefono_cliente = "" then "desconocido"
                    else telefono_cliente
                  inicio := start_s
                  fin := end_s
                  id_evento_google := e.id
                  servicios := servicios
                  precio_total := precio_total
                  estilista_id := estilista_id
                  estado := "pendiente"
                  notas := some "Sincronizado desde Google Calendar" }

/-- Embeds `update_appointment_from_event`: overwrite the stored times when
the event's timed bounds differ, and cancel on an externally cancelled event
unless the appointment is already terminal; returns the updated row and the
`updated` flag. -/
def update_appointment_from_event (appointment : Cita) (e : GCalEvent) :
    Cita × Bool :=
  let start_str := e.startTime.dateTime
  let end_str := e.endTime.dateTime
  let step1 :=
    if pyTruthyStr start_str && pyTruthyStr end_str then
      let sdt := start_str.getD ""
      let edt := end_str.getD ""
      if appointment.inicio ≠ sdt ∨ appointment.fin ≠ edt then
        ({ appointment with inicio := sdt, fin := edt }, true)
      else (appointment, false)
    else (appointment, false)
  let appt1 := step1.1
  if e.status = some "cancelled" ∧ appt1.estado ≠ "cancelada" ∧
      appt1.estado ≠ "completada" then
    ({ appt1 with estado := "cancelada" }, true)
  else (appt1, step1.2)

/-- Key of a row in `db_appointments` (`if a.id_evento_google` keeps only
truthy ids). -/
def citaKey (a : Cita) : Option String :=
  if pyTruthyStr a.id_evento_google then a.id_evento_google else none

/-- Truthy event id (`if not event_id: continue`). -/
def eventKey (e : GCalEvent) : Option String :=
  if pyTruthyStr e.id then e.id else none

/-- Running state of one `sync_calendar_events` run: the window's existing
rows (mutated in place), the processed event ids, the rows added by the
create path, and the update counter. -/
structure SyncState where
  rows : List Cita
  processed : List String
  created : List Cita
  updatedCount : ℕ
  deriving Repr, DecidableEq

/-- Per-event body of the sync loop. -/
def syncEventStep (stylists : List Estilista) (st : SyncState) (e : GCalEvent) :
    SyncState :=
  match eventKey e with
  | none => st
  | some eid =>
      let st := { st with processed := st.processed ++ [eid] }
      if st.rows.any fun a => citaKey a = some eid then
        let pairs := st.rows.map fun a =>
          if citaKey a = some eid then update_appointment_from_event a e
          else (a, false)
        { st with
          rows := pairs.map Prod.fst
          updatedCount :=
            st.updatedCount + (if pairs.any Prod.snd then 1 else 0) }
      else
        match create_appointment_from_event stylists e with
        | some c => { st with created := st.created ++ [c] }
        | none => st

/-- Cancellation note appended when an event disappears from the calendar. -/
def autoCancelNote : String :=
  "Cancelada automáticamente: evento eliminado del calendario"

/-- Delete phase: any keyed row whose event id was not seen in this fetch is
cancelled with a note, unless already terminal. -/
def cancelMissing (processed : List String) (rows : List Cita) : List Cita :=
  rows.map fun a =>
    match citaKey a with
    | some eid =>
        if eid ∈ processed then a
        else if a.estado ≠ "cancelada" ∧ a.estado ≠ "completada" then
          { a with
            estado := "cancelada"
            notas := some (pyStrip (pyStrOr a.notas "" ++ "\n" ++ autoCancelNote)) }
        else a
    | none => a

/-- Embeds the committed effect of one `sync_calendar_events` run whose
fetch succeeded: the event loop followed by the delete phase (all writes of
one run commit together). -/
def syncRun (stylists : List Estilista) (events : List GCalEvent)
    (db : List Cita) : SyncState :=
  let st := events.foldl (syncEventStep stylists) ⟨db, [], [], 0⟩
  { st with rows := cancelMissing st.processed st.rows }

/-! ## Helper definitions used by the claim statements -/

/-- Whether the conversation's stored row (if any) has the bot active, i.e.
whether `conv_record.bot_activo` will be true after the handler's upsert. -/
def recordActive (s : ProcState) : Prop :=
  match s.record with
  | none => True
  | some c => c.bot_activo = true

instance (s : ProcState) : Decidable (recordActive s) := by
  unfold recordActive
  cases s.record <;> infer_instance

/-- Inbound customer message that passes every intake gate except possibly
the keyword check: incoming, not private, customer sender, rate allowed,
with extracted content `c`. -/
def acceptedArrival (c : String) : InboundMessage :=
  { extracted := some c }

/-- Feed a burst of accepted messages, in order, through the intake handler. -/
def runArrivals (env : ProcEnv) (keywords : List String) (cs : List String)
    (s : ProcState) : ProcState :=
  cs.foldl (fun s c => handleMessage env keywords (acceptedArrival c) s) s

/-- External calendar event of the reconciliation create scenario. -/
def anaEvent : GCalEvent :=
  { id := some "evt123"
    summary := "Corte, Tinte - Ana Pérez"
    description := "Teléfono: 5551234567\nPrecio: $500"
    startTime := { dateTime := some "2024-06-01T10:00:00-06:00" }
    endTime := { dateTime := some "2024-06-01T11:00:00-06:00" } }

/-- Appointment the create scenario must synthesize. -/
def anaCita : Cita :=
  { nombre_cliente := "Ana Pérez"
    telefono_cliente := "5551234567"
    inicio := "2024-06-01T10:00:00-06:00"
    fin := "2024-06-01T11:00:00-06:00"
    id_evento_google := some "evt123"
    servicios := ["Corte", "Tinte"]
    precio_total := 500
    estilista_id := none
    estado := "pendiente"
    notas := some "Sincronizado desde Google Calendar" }

/-! ## Proof development

Everything below is theorems about the definitions above; the race-machine
lemmas come first, then the theorems settling the individual claims. -/

theorem stepG_false_eq (reply : String) (latency : ℚ) (g : FGlobal) :
    stepG reply latency false g = (stepG reply latency true g.swap).swap := by
  simp [stepG, FGlobal.swap]

theorem raceInv_swap {P : List String} {reply : String} {g : FGlobal}
    (h : raceInv P reply g) : raceInv P reply g.swap := by
  obtain ⟨sh, a, b⟩ := g
  rcases h with ⟨ha, hb, hl, hpend, hac, hse⟩ | hA | hB
  · exact Or.inl ⟨hb, ha, hl, hpend, hac, hse⟩
  · exact Or.inr (Or.inr hA)
  · exact Or.inr (Or.inl hB)

theorem raceInv_step_true (P : List String) (hP : P ≠ []) (reply : String)
    (latency : ℚ) (g : FGlobal) (h : raceInv P reply g) :
    raceInv P reply (stepG reply latency true g) := by
  obtain ⟨p, ps, rfl⟩ : ∃ p ps, P = p :: ps := by
    cases P with
    | nil => exact absurd rfl hP
    | cons p ps => exact ⟨p, ps, rfl⟩
  obtain ⟨sh, a, b⟩ := g
  replace h : raceStartState (p :: ps) sh a b ∨
      raceHolder (p :: ps) reply sh a b ∨
      raceHolder (p :: ps) reply sh b a := h
  rcases h with ⟨ha, hb, hl, hpend, hac, hse⟩ | hA | hB
  · -- both at start: firing a acquires the lock
    subst ha hb
    have hstep : stepG reply latency true ⟨sh, .start, .start⟩ =
        ⟨{ sh with lock := true }, .readPending, .start⟩ := by
      simp [stepG, stepFiring, hl]
    rw [hstep]
    exact Or.inr (Or.inl (Or.inl ⟨rfl, Or.inl ⟨rfl, hpend, hac, hse⟩,
      Or.inl rfl⟩))
  · -- a is the winner of the lock race
    rcases hA with ⟨hl, hmid, hidle⟩ | ⟨hl, hpend, hac, hse, hpr, hidle⟩ |
      ⟨hl, hpend, hac, hse, hpr, hother⟩ | ⟨hl, hpend, hac, hse, hpr, hother⟩
    · -- a is inside the guarded block and advances one statement
      rcases hmid with ⟨ha, hpend, hac, hse⟩ | ⟨ha, hpend, hac, hse⟩ |
        ⟨ha, hpend, hac, hse⟩ | ⟨ha, hpend, hac, hse⟩ | ⟨ha, hpend, hac, hse⟩
      · subst ha
        have hstep : stepG reply latency true ⟨sh, .readPending, b⟩ =
            ⟨sh, .clearPending sh.pending, b⟩ := by
          simp [stepG, stepFiring, hpend]
        rw [hstep]
        exact Or.inr (Or.inl (Or.inl ⟨hl,
          Or.inr (Or.inl ⟨by rw [hpend], hpend, hac, hse⟩), hidle⟩))
      · subst ha
        have hstep : stepG reply latency true ⟨sh, .clearPending (p :: ps), b⟩ =
            ⟨{ sh with pending := [] }, .callAgent (p :: ps), b⟩ := by
          simp [stepG, stepFiring]
        rw [hstep]
        exact Or.inr (Or.inl (Or.inl ⟨hl,
          Or.inr (Or.inr (Or.inl ⟨rfl, rfl, hac, hse⟩)), hidle⟩))
      · subst ha
        have hstep : stepG reply latency true ⟨sh, .callAgent (p :: ps), b⟩ =
            ⟨{ sh with agentCalls :=
                sh.agentCalls ++ [String.intercalate " " (p :: ps)] },
              .sendReply (p :: ps), b⟩ := by
          simp [stepG, stepFiring]
        rw [hstep]
        exact Or.inr (Or.inl (Or.inl ⟨hl,
          Or.inr (Or.inr (Or.inr (Or.inl ⟨rfl, hpend, by simp [hac], hse⟩))),
          hidle⟩))
      · subst ha
        have hstep : stepG reply latency true ⟨sh, .sendReply (p :: ps), b⟩ =
            ⟨{ sh with sent := sh.sent ++ [reply] },
              .ctxUpdate (p :: ps), b⟩ := by
          simp [stepG, stepFiring]
        rw [hstep]
        exact Or.inr (Or.inl (Or.inl ⟨hl,
          Or.inr (Or.inr (Or.inr (Or.inr ⟨Or.inl rfl, hpend, hac,
            by simp [hse]⟩))), hidle⟩))
      · rcases ha with ha | ha
        · subst ha
          have hstep : stepG reply latency true ⟨sh, .ctxUpdate (p :: ps), b⟩ =
              ⟨{ sh with context := some (lastN 20 ((sh.context.getD []) ++
                    [⟨"user", String.intercalate " " (p :: ps)⟩,
                     ⟨"assistant", reply⟩])) },
                .releaseLock (p :: ps), b⟩ := by
            simp [stepG, stepFiring]
          rw [hstep]
          exact Or.inr (Or.inl (Or.inl ⟨hl,
            Or.inr (Or.inr (Or.inr (Or.inr ⟨Or.inr rfl, hpend, hac,
              hse⟩))), hidle⟩))
        · subst ha
          have hstep : stepG reply latency true ⟨sh, .releaseLock (p :: ps), b⟩ =
              ⟨{ sh with lock := false }, .errorStat (p :: ps), b⟩ := by
            simp [stepG, stepFiring]
          rw [hstep]
          exact Or.inr (Or.inl (Or.inr (Or.inl ⟨rfl, hpend, hac, hse,
            Or.inl rfl, hidle⟩)))
    · -- a is past the lock release (error-statistic write or done)
      rcases hpr with ha | ha
      · subst ha
        have hstep : stepG reply latency true ⟨sh, .errorStat (p :: ps), b⟩ =
            ⟨{ sh with stats := (update_statistics true { errores := 1 }
                sh.stats) }, .doneProcessed, b⟩ := by
          simp [stepG, stepFiring]
        rw [hstep]
        exact Or.inr (Or.inl (Or.inr (Or.inl ⟨hl, hpend, hac, hse,
          Or.inr rfl, hidle⟩)))
      · subst ha
        have hstep : stepG reply latency true ⟨sh, .doneProcessed, b⟩ =
            ⟨sh, .doneProcessed, b⟩ := by
          simp [stepG, stepFiring]
        rw [hstep]
        exact Or.inr (Or.inl (Or.inr (Or.inl ⟨hl, hpend, hac, hse,
          Or.inr rfl, hidle⟩)))
    · rcases hpr with ha | ha
      · subst ha
        have hstep : stepG reply latency true ⟨sh, .errorStat (p :: ps), b⟩ =
            ⟨{ sh with stats := (update_statistics true { errores := 1 }
                sh.stats) }, .doneProcessed, b⟩ := by
          simp [stepG, stepFiring]
        rw [hstep]
        exact Or.inr (Or.inl (Or.inr (Or.inr (Or.inl ⟨hl, hpend, hac, hse,
          Or.inr rfl, hother⟩))))
      · subst ha
        have hstep : stepG reply latency true ⟨sh, .doneProcessed, b⟩ =
            ⟨sh, .doneProcessed, b⟩ := by
          simp [stepG, stepFiring]
        rw [hstep]
        exact Or.inr (Or.inl (Or.inr (Or.inr (Or.inl ⟨hl, hpend, hac, hse,
          Or.inr rfl, hother⟩))))
    · rcases hpr with ha | ha
      · subst ha
        have hstep : stepG reply latency true ⟨sh, .errorStat (p :: ps), b⟩ =
            ⟨{ sh with stats := (update_statistics true { errores := 1 }
                sh.stats) }, .doneProcessed, b⟩ := by
          simp [stepG, stepFiring]
        rw [hstep]
        exact Or.inr (Or.inl (Or.inr (Or.inr (Or.inr ⟨hl, hpend, hac, hse,
          Or.inr rfl, hother⟩))))
      · subst ha
        have hstep : stepG reply latency true ⟨sh, .doneProcessed, b⟩ =
            ⟨sh, .doneProcessed, b⟩ := by
          simp [stepG, stepFiring]
        rw [hstep]
        exact Or.inr (Or.inl (Or.inr (Or.inr (Or.inr ⟨hl, hpend, hac, hse,
          Or.inr rfl, hother⟩))))
  · -- b is the winner of the lock race; a loses, drains empty, or is done
    rcases hB with ⟨hl, hmid, hidle⟩ | ⟨hl, hpend, hac, hse, hpr, hidle⟩ |
      ⟨hl, hpend, hac, hse, hpr, hother⟩ | ⟨hl, hpend, hac, hse, hpr, hother⟩
    · rcases hidle with ha | ha
      · subst ha
        have hstep : stepG reply latency true ⟨sh, .start, b⟩ =
            ⟨sh, .doneAbandoned, b⟩ := by
          simp [stepG, stepFiring, hl]
        rw [hstep]
        exact Or.inr (Or.inr (Or.inl ⟨hl, hmid, Or.inr rfl⟩))
      · subst ha
        have hstep : stepG reply latency true ⟨sh, .doneAbandoned, b⟩ =
            ⟨sh, .doneAbandoned, b⟩ := by
          simp [stepG, stepFiring]
        rw [hstep]
        exact Or.inr (Or.inr (Or.inl ⟨hl, hmid, Or.inr rfl⟩))
    · rcases hidle with ha | ha
      · -- a acquires the freed lock and will drain the empty buffer
        subst ha
        have hstep : stepG reply latency true ⟨sh, .start, b⟩ =
            ⟨{ sh with lock := true }, .readPending, b⟩ := by
          simp [stepG, stepFiring, hl]
        rw [hstep]
        exact Or.inr (Or.inr (Or.inr (Or.inr (Or.inl ⟨rfl, hpend, hac, hse,
          hpr, Or.inl rfl⟩))))
      · subst ha
        have hstep : stepG reply latency true ⟨sh, .doneAbandoned, b⟩ =
            ⟨sh, .doneAbandoned, b⟩ := by
          simp [stepG, stepFiring]
        rw [hstep]
        exact Or.inr (Or.inr (Or.inr (Or.inl ⟨hl, hpend, hac, hse, hpr,
          Or.inr rfl⟩)))
    · rcases hother with ha | ha
      · subst ha
        have hstep : stepG reply latency true ⟨sh, .readPending, b⟩ =
            ⟨sh, .releaseLock [], b⟩ := by
          simp [stepG, stepFiring, hpend]
        rw [hstep]
        exact Or.inr (Or.inr (Or.inr (Or.inr (Or.inl ⟨hl, hpend, hac, hse,
          hpr, Or.inr rfl⟩))))
      · subst ha
        have hstep : stepG reply latency true ⟨sh, .releaseLock [], b⟩ =
            ⟨{ sh with lock := false }, .doneEmpty, b⟩ := by
          simp [stepG, stepFiring]
        rw [hstep]
        exact Or.inr (Or.inr (Or.inr (Or.inr (Or.inr ⟨rfl, hpend, hac, hse,
          hpr, Or.inr rfl⟩))))
    · rcases hother with ha | ha
      · subst ha
        have hstep : stepG reply latency true ⟨sh, .doneAbandoned, b⟩ =
            ⟨sh, .doneAbandoned, b⟩ := by
          simp [stepG, stepFiring]
        rw [hstep]
        exact Or.inr (Or.inr (Or.inr (Or.inr (Or.inr ⟨hl, hpend, hac, hse,
          hpr, Or.inl rfl⟩))))
      · subst ha
        have hstep : stepG reply latency true ⟨sh, .doneEmpty, b⟩ =
            ⟨sh, .doneEmpty, b⟩ := by
          simp [stepG, stepFiring]
        rw [hstep]
        exact Or.inr (Or.inr (Or.inr (Or.inr (Or.inr ⟨hl, hpend, hac, hse,
          hpr, Or.inr rfl⟩))))

theorem raceInv_step (P : List String) (hP : P ≠ []) (reply : String)
    (latency : ℚ) (c : Bool) (g : FGlobal) (h : raceInv P reply g) :
    raceInv P reply (stepG reply latency c g) := by
  cases c with
  | true => exact raceInv_step_true P hP reply latency g h
  | false =>
      rw [stepG_false_eq]
      exact raceInv_swap (raceInv_step_true P hP reply latency g.swap
        (raceInv_swap h))

theorem raceInv_run (P : List String) (hP : P ≠ []) (reply : String)
    (latency : ℚ) (sched : List Bool) (g : FGlobal) (h : raceInv P reply g) :
    raceInv P reply (runSched reply latency sched g) := by
  induction sched generalizing g with
  | nil => exact h
  | cons c cs ih => exact ih _ (raceInv_step P hP reply latency c g h)

theorem raceInv_final (P : List String) (reply : String) (g : FGlobal)
    (h : raceInv P reply g) (hda : g.a.isDone = true) (hdb : g.b.isDone = true) :
    g.sh.pending = [] ∧ g.sh.agentCalls = [String.intercalate " " P] ∧
      g.sh.sent = [reply] ∧
      ((g.a = .doneProcessed ∧ g.b ≠ .doneProcessed)
        ∨ (g.b = .doneProcessed ∧ g.a ≠ .doneProcessed)) := by
  obtain ⟨sh, a, b⟩ := g
  dsimp only at hda hdb ⊢
  replace h : raceStartState P sh a b ∨
      raceHolder P reply sh a b ∨ raceHolder P reply sh b a := h
  rcases h with ⟨ha, hb, hl, hpend, hac, hse⟩ | hA | hB
  · rw [ha] at hda
    simp [FLocal.isDone] at hda
  · rcases hA with ⟨hl, hmid, hidle⟩ | ⟨hl, hpend, hac, hse, hpr, hidle⟩ |
      ⟨hl, hpend, hac, hse, hpr, hother⟩ | ⟨hl, hpend, hac, hse, hpr, hother⟩
    · rcases hmid with ⟨ha, _⟩ | ⟨ha, _⟩ | ⟨ha, _⟩ | ⟨ha, _⟩ | ⟨ha, _⟩
      · rw [ha] at hda; simp [FLocal.isDone] at hda
      · rw [ha] at hda; simp [FLocal.isDone] at hda
      · rw [ha] at hda; simp [FLocal.isDone] at hda
      · rw [ha] at hda; simp [FLocal.isDone] at hda
      · rcases ha with ha | ha <;> rw [ha] at hda <;>
          simp [FLocal.isDone] at hda
    · rcases hpr with ha | ha
      · rw [ha] at hda; simp [FLocal.isDone] at hda
      · rcases hidle with hb | hb
        · rw [hb] at hdb; simp [FLocal.isDone] at hdb
        · exact ⟨hpend, hac, hse, Or.inl ⟨ha, by rw [hb]; simp⟩⟩
    · rcases hother with hb | hb <;> rw [hb] at hdb <;>
        simp [FLocal.isDone] at hdb
    · rcases hpr with ha | ha
      · rw [ha] at hda; simp [FLocal.isDone] at hda
      · rcases hother with hb | hb
        · exact ⟨hpend, hac, hse, Or.inl ⟨ha, by rw [hb]; simp⟩⟩
        · exact ⟨hpend, hac, hse, Or.inl ⟨ha, by rw [hb]; simp⟩⟩
  · rcases hB with ⟨hl, hmid, hidle⟩ | ⟨hl, hpend, hac, hse, hpr, hidle⟩ |
      ⟨hl, hpend, hac, hse, hpr, hother⟩ | ⟨hl, hpend, hac, hse, hpr, hother⟩
    · rcases hmid with ⟨hb, _⟩ | ⟨hb, _⟩ | ⟨hb, _⟩ | ⟨hb, _⟩ | ⟨hb, _⟩
      · rw [hb] at hdb; simp [FLocal.isDone] at hdb
      · rw [hb] at hdb; simp [FLocal.isDone] at hdb
      · rw [hb] at hdb; simp [FLocal.isDone] at hdb
      · rw [hb] at hdb; simp [FLocal.isDone] at hdb
      · rcases hb with hb | hb <;> rw [hb] at hdb <;>
          simp [FLocal.isDone] at hdb
    · rcases hpr with hb | hb
      · rw [hb] at hdb; simp [FLocal.isDone] at hdb
      · rcases hidle with ha | ha
        · rw [ha] at hda; simp [FLocal.isDone] at hda
        · exact ⟨hpend, hac, hse, Or.inr ⟨hb, by rw [ha]; simp⟩⟩
    · rcases hother with ha | ha <;> rw [ha] at hda <;>
        simp [FLocal.isDone] at hda
    · rcases hpr with hb | hb
      · rw [hb] at hdb; simp [FLocal.isDone] at hdb
      · rcases hother with ha | ha
        · exact ⟨hpend, hac, hse, Or.inr ⟨hb, by rw [ha]; simp⟩⟩
        · exact ⟨hpend, hac, hse, Or.inr ⟨hb, by rw [ha]; simp⟩⟩


/-! ## Behaviour of `fire` and `handleMessage` on the main paths -/

theorem fire_stale (env : ProcEnv) (g : ℕ) (s : ProcState)
    (h : g ≠ s.timerGen) : fire env g s = s := by
  simp [fire, h]

theorem fire_locked (env : ProcEnv) (g : ℕ) (s : ProcState)
    (hg : g = s.timerGen) (h : s.lock = true) : fire env g s = s := by
  simp [fire, hg, h]

theorem fire_success (env : ProcEnv) (gen : ℕ) (s : ProcState)
    (p : String) (ps : List String)
    (hg : gen = s.timerGen) (hl : s.lock = false) (hp : s.pending = p :: ps)
    (hff : env.frameFault = false) (hsend : env.sendOk = true) :
    fire env gen s =
      { s with
        pending := []
        lock := false
        agentCalls := s.agentCalls ++ [String.intercalate " " (p :: ps)]
        sent := s.sent ++ [env.reply]
        context := some (lastN 20 ((s.context.getD []) ++
          [⟨"user", String.intercalate " " (p :: ps)⟩,
           ⟨"assistant", env.reply⟩]))
        stats := update_statistics env.statsOk
          ⟨0, 0, 0, 0, 0, 0, 1, none⟩ s.stats } := by
  simp [fire, hg, hl, hp, hff, hsend]

theorem fire_frame_fault (env : ProcEnv) (gen : ℕ) (s : ProcState)
    (p : String) (ps : List String)
    (hg : gen = s.timerGen) (hl : s.lock = false) (hp : s.pending = p :: ps)
    (hff : env.frameFault = true) :
    fire env gen s =
      { s with
        pending := []
        lock := false
        stats := update_statistics env.statsOk
          ⟨0, 0, 0, 0, 0, 0, 1, none⟩ s.stats } := by
  simp [fire, hg, hl, hp, hff]

theorem fire_send_failed (env : ProcEnv) (gen : ℕ) (s : ProcState)
    (p : String) (ps : List String)
    (hg : gen = s.timerGen) (hl : s.lock = false) (hp : s.pending = p :: ps)
    (hff : env.frameFault = false) (hsend : env.sendOk = false) :
    fire env gen s =
      { s with
        pending := []
        lock := false
        agentCalls := s.agentCalls ++ [String.intercalate " " (p :: ps)]
        context := some (lastN 20 ((s.context.getD []) ++
          [⟨"user", String.intercalate " " (p :: ps)⟩,
           ⟨"assistant", env.reply⟩]))
        stats := update_statistics env.statsOk
          ⟨0, 0, 0, 0, 0, 0, 1, none⟩ s.stats } := by
  simp [fire, hg, hl, hp, hff, hsend]

theorem update_statistics_errores_map (dbOk : Bool) (d : StatsDelta)
    (st : EstadisticasBot) (hd : d.errores = 0) :
    ((update_statistics dbOk d (some st)).map EstadisticasBot.errores) =
      some st.errores := by
  unfold update_statistics
  cases dbOk with
  | false => rfl
  | true =>
      dsimp only
      split_ifs <;> simp [hd]

theorem handleMessage_keyword
    (env : ProcEnv) (keywords : List String) (m : InboundMessage)
    (s : ProcState) (content : String)
    (hkind : m.messageType = "incoming") (hpriv : m.privateNote = false)
    (hsender : m.senderType ≠ some "user")
    (hactive : (upsertConversation m s).bot_activo = true)
    (hrate : m.rateAllowed = true) (hext : m.extracted = some content)
    (hc : content ≠ "") (hkw : checkHumanKeywords keywords content = true) :
    handleMessage env keywords m s =
      { s with
        record := some (pauseConversation (upsertConversation m s)
          "Cliente solicitó agente humano" none m.arrivedAt)
        context := none
        stats := update_statistics env.statsOk { transferencias_humano := 1 }
          s.stats
        sent := s.sent ++ [handoffAck]
        extractions := s.extractions + 1 } := by
  unfold handleMessage pauseBot
  simp [hkind, hpriv, hsender, hactive, hrate, hext, pyTruthyStr, hc, hkw]

theorem upsert_active (m : InboundMessage) (s : ProcState)
    (h : recordActive s) : (upsertConversation m s).bot_activo = true := by
  unfold upsertConversation
  unfold recordActive at h
  cases hr : s.record with
  | none => rfl
  | some c =>
      rw [hr] at h
      unfold touchConversation
      dsimp only
      split <;> simpa using h

theorem handleMessage_accepted (env : ProcEnv) (keywords : List String)
    (c : String) (s : ProcState) (hc : c ≠ "")
    (hkw : checkHumanKeywords keywords c = false) (hactive : recordActive s) :
    handleMessage env keywords (acceptedArrival c) s =
      { s with
        record := some (upsertConversation (acceptedArrival c) s)
        pending := s.pending ++ [c]
        timerGen := s.timerGen + 1
        extractions := s.extractions + 1 } := by
  unfold handleMessage
  simp [acceptedArrival, upsert_active _ _ hactive, pyTruthyStr, hc, hkw]

theorem runArrivals_spec (env : ProcEnv) (keywords : List String)
    (cs : List String) :
    ∀ s : ProcState,
      (∀ c ∈ cs, c ≠ "" ∧ checkHumanKeywords keywords c = false) →
      recordActive s →
      (runArrivals env keywords cs s).pending = s.pending ++ cs ∧
      (runArrivals env keywords cs s).timerGen = s.timerGen + cs.length ∧
      (runArrivals env keywords cs s).lock = s.lock ∧
      (runArrivals env keywords cs s).agentCalls = s.agentCalls ∧
      (runArrivals env keywords cs s).sent = s.sent ∧
      (runArrivals env keywords cs s).context = s.context ∧
      (runArrivals env keywords cs s).stats = s.stats ∧
      recordActive (runArrivals env keywords cs s) := by
  induction cs with
  | nil =>
      intro s _ hactive
      simpa [runArrivals] using hactive
  | cons c cs ih =>
      intro s hok hactive
      have hc := hok c (List.mem_cons_self c cs)
      have hstep := handleMessage_accepted env keywords c s hc.1 hc.2 hactive
      have hrun : runArrivals env keywords (c :: cs) s =
          runArrivals env keywords cs
            (handleMessage env keywords (acceptedArrival c) s) := rfl
      rw [hrun, hstep]
      have hactive' : recordActive
          { s with
            record := some (upsertConversation (acceptedArrival c) s)
            pending := s.pending ++ [c]
            timerGen := s.timerGen + 1
            extractions := s.extractions + 1 } := by
        unfold recordActive
        exact upsert_active _ _ hactive
      have := ih _ (fun d hd => hok d (List.mem_cons_of_mem c hd)) hactive'
      simpa [List.append_assoc, Nat.add_assoc, Nat.add_comm 1 cs.length]
        using this

/-! ## C8 — pause-field invariant of ConversacionChatwoot -/

/-- C8: every operation on a conversation row preserves the invariant that
`motivo_pausa`, `pausado_por` and `pausado_en` are all null iff `bot_activo`
is true.  Creation defaults to an active bot with all pause fields null;
the get-or-create touch leaves the pause fields alone; `pause()` writes
`bot_activo = false` together with the pause metadata in its single UPDATE
(the actor may be null while the reason and timestamp are always set); and
`reactivate()` writes `bot_activo = true` and nulls all three in its single
UPDATE. -/
theorem claim8_pause_reactivate_invariant
    (cid : ℕ) (phone : String) (name0 : Option String) (contactId : Option ℕ)
    (now t : ℕ) (conv : ConversacionChatwoot) (reason : String)
    (paused_by contact_name : Option String)
    (hconv : pauseFieldsInvariant conv) :
    pauseFieldsInvariant (createConversation cid phone name0 contactId now) ∧
    (createConversation cid phone name0 contactId now).bot_activo = true ∧
    pauseFieldsInvariant (touchConversation conv contact_name t) ∧
    pauseFieldsInvariant (pauseConversation conv reason paused_by t) ∧
    (pauseConversation conv reason paused_by t).bot_activo = false ∧
    (pauseConversation conv reason paused_by t).motivo_pausa = some reason ∧
    (pauseConversation conv reason paused_by t).pausado_en = some t ∧
    (pauseConversation conv reason paused_by t).pausado_por = paused_by ∧
    pauseFieldsInvariant (reactivateConversation conv) ∧
    (reactivateConversation conv).bot_activo = true ∧
    (reactivateConversation conv).motivo_pausa = none ∧
    (reactivateConversation conv).pausado_por = none ∧
    (reactivateConversation conv).pausado_en = none := by
  obtain ⟨f1, f2, f3, f4, f5, f6, f7, f8, f9⟩ := conv
  refine ⟨?_, rfl, ?_, ?_, rfl, rfl, rfl, rfl, ?_, rfl, rfl, rfl, rfl⟩
  · simp [pauseFieldsInvariant, createConversation]
  · unfold touchConversation
    dsimp only
    split <;> simpa [pauseFieldsInvariant] using hconv
  · simp [pauseFieldsInvariant, pauseConversation]
  · simp [pauseFieldsInvariant, reactivateConversation]

/-- Witness for `claim8_pause_reactivate_invariant` at a concrete row. -/
theorem claim8_witness :
    pauseFieldsInvariant
      (touchConversation (createConversation 7 "5551234567" none none 0)
        (some "Ana") 3) ∧
    pauseFieldsInvariant
      (pauseConversation (createConversation 7 "5551234567" none none 0)
        "Cliente solicitó agente humano" none 3) :=
  ⟨(claim8_pause_reactivate_invariant 7 "5551234567" none none 0 3
      (createConversation 7 "5551234567" none none 0)
      "Cliente solicitó agente humano" none (some "Ana") (by decide)).2.2.1,
   (claim8_pause_reactivate_invariant 7 "5551234567" none none 0 3
      (createConversation 7 "5551234567" none none 0)
      "Cliente solicitó agente humano" none (some "Ana") (by decide)).2.2.2.1⟩

/-! ## C4 — rate limiter -/

/-- C4: `check_rate_limit` returns `(false, current)` without writing when
the stored count has reached the limit, and otherwise increments the counter,
refreshes its TTL to the window, and returns `(true, newCount)`; with
`maxCount = 5` and `windowSeconds = 60`, five messages are allowed, a sixth
within the window is rejected with count 5, and a message after the
(refreshed) window expires is allowed with count 1. -/
theorem claim4_rate_limit_check :
    (∀ (st : RateState) (t maxM w : ℕ), maxM ≤ rateValue st t →
        check_rate_limit st t maxM w = ((false, rateValue st t), st)) ∧
    (∀ (st : RateState) (t maxM w : ℕ), rateValue st t < maxM →
        check_rate_limit st t maxM w =
          ((true, rateValue st t + 1), ⟨some (rateValue st t + 1, t + w)⟩)) ∧
    (rateRun 5 60 [0, 1, 2, 3, 4, 5, 65] ⟨none⟩).1 =
      [(true, 1), (true, 2), (true, 3), (true, 4), (true, 5), (false, 5),
        (true, 1)] := by
  refine ⟨?_, ?_, by decide⟩
  · intro st t maxM w h
    simp [check_rate_limit, h]
  · intro st t maxM w h
    simp [check_rate_limit, Nat.not_le.mpr h]

/-- Witness for `claim4_rate_limit_check`: a full counter rejects without
writing; a fresh counter increments and stamps its expiry. -/
theorem claim4_witness :
    check_rate_limit ⟨some (5, 100)⟩ 10 5 60 = ((false, 5), ⟨some (5, 100)⟩) ∧
    check_rate_limit ⟨none⟩ 10 5 60 = ((true, 1), ⟨some (1, 70)⟩) :=
  ⟨claim4_rate_limit_check.1 ⟨some (5, 100)⟩ 10 5 60 (by decide),
   claim4_rate_limit_check.2.1 ⟨none⟩ 10 5 60 (by decide)⟩

/-! ## C10 — rate-limited messages -/

/-- C10: an incoming customer message that the rate limiter rejects causes
exactly one fixed wait notice through ChatPort and nothing else: the content
is never extracted, nothing is buffered, no debounce task is scheduled, and
the agent is not invoked. -/
theorem claim10_rate_limited_message
    (env : ProcEnv) (keywords : List String) (m : InboundMessage)
    (s : ProcState)
    (hkind : m.messageType = "incoming") (hpriv : m.privateNote = false)
    (hsender : m.senderType ≠ some "user")
    (hactive : (upsertConversation m s).bot_activo = true)
    (hrate : m.rateAllowed = false) :
    handleMessage env keywords m s =
      { s with
        record := some (upsertConversation m s)
        sent := s.sent ++ [rateLimitNotice] } ∧
    (handleMessage env keywords m s).extractions = s.extractions ∧
    (handleMessage env keywords m s).pending = s.pending ∧
    (handleMessage env keywords m s).timerGen = s.timerGen ∧
    (handleMessage env keywords m s).agentCalls = s.agentCalls ∧
    (handleMessage env keywords m s).sent = s.sent ++ [rateLimitNotice] := by
  have heq : handleMessage env keywords m s =
      { s with
        record := some (upsertConversation m s)
        sent := s.sent ++ [rateLimitNotice] } := by
    unfold handleMessage
    simp [hkind, hpriv, hsender, hactive, hrate]
  exact ⟨heq, by rw [heq], by rw [heq], by rw [heq], by rw [heq], by rw [heq]⟩

/-- Witness for `claim10_rate_limited_message` on a fresh conversation. -/
theorem claim10_witness :
    (handleMessage {} [] { rateAllowed := false } initialProcState).sent =
      [rateLimitNotice] ∧
    (handleMessage {} [] { rateAllowed := false } initialProcState).extractions
      = 0 := by
  have h := claim10_rate_limited_message {} [] { rateAllowed := false }
    initialProcState rfl rfl (by decide) (by decide) rfl
  refine ⟨?_, h.2.1⟩
  rw [h.1]
  rfl

/-! ## C6 — human-handoff keyword -/

/-- C6: an incoming customer message whose extracted content contains a
configured handoff keyword (case-insensitive substring) pauses the bot
(`bot_activo` becomes false), clears the conversation context, is never
buffered into the pending queue (and so never reaches the agent — no
debounce task is scheduled for it and the agent-call log is untouched), and
causes exactly one fixed acknowledgment to be sent. -/
theorem claim6_handoff_keyword
    (env : ProcEnv) (keywords : List String) (m : InboundMessage)
    (s : ProcState) (content : String)
    (hkind : m.messageType = "incoming") (hpriv : m.privateNote = false)
    (hsender : m.senderType ≠ some "user")
    (hactive : (upsertConversation m s).bot_activo = true)
    (hrate : m.rateAllowed = true) (hext : m.extracted = some content)
    (hc : content ≠ "") (hkw : checkHumanKeywords keywords content = true) :
    handleMessage env keywords m s =
      { s with
        record := some (pauseConversation (upsertConversation m s)
          "Cliente solicitó agente humano" none m.arrivedAt)
        context := none
        stats := update_statistics env.statsOk { transferencias_humano := 1 }
          s.stats
        sent := s.sent ++ [handoffAck]
        extractions := s.extractions + 1 } ∧
    ((handleMessage env keywords m s).record.map
      ConversacionChatwoot.bot_activo) = some false ∧
    (handleMessage env keywords m s).context = none ∧
    (handleMessage env keywords m s).pending = s.pending ∧
    (handleMessage env keywords m s).timerGen = s.timerGen ∧
    (handleMessage env keywords m s).agentCalls = s.agentCalls ∧
    (handleMessage env keywords m s).sent = s.sent ++ [handoffAck] := by
  have heq := handleMessage_keyword env keywords m s content hkind hpriv
    hsender hactive hrate hext hc hkw
  refine ⟨heq, ?_, by rw [heq], by rw [heq], by rw [heq], by rw [heq],
    by rw [heq]⟩
  rw [heq]
  rfl

/-- Witness for `claim6_handoff_keyword`: the keyword "humano" inside a
longer message on a fresh conversation. -/
theorem claim6_witness :
    ((handleMessage {} ["humano"]
        { extracted := some "Quiero hablar con un humano" }
        initialProcState).record.map ConversacionChatwoot.bot_activo)
      = some false ∧
    (handleMessage {} ["humano"]
        { extracted := some "Quiero hablar con un humano" }
        initialProcState).sent = [handoffAck] := by
  have h := claim6_handoff_keyword {} ["humano"]
    { extracted := some "Quiero hablar con un humano" } initialProcState
    "Quiero hablar con un humano" rfl rfl (by decide) (by decide) rfl rfl
    (by decide) (by decide)
  refine ⟨h.2.1, ?_⟩
  rw [h.1]
  rfl

/-! ## C9 — statistics running average (corrected) -/

/-- C9 as stated is refuted by Python truthiness: a stored average that is
non-null but exactly `0.0` is treated as absent (`if
stats.tiempo_respuesta_promedio_ms:`), so recording a 500 ms sample on a row
with average 0 over 1 response sets the average to 500, not to the claimed
`(0*(2-1)+500)/2 = 250`. -/
theorem claim9_counterexample :
    ((update_statistics true
        { mensajes_respondidos := 1, response_time_ms := some 500 }
        (some ⟨0, 1, 0, 0, 0, 0, 0, some 0⟩)).bind
      EstadisticasBot.tiempo_respuesta_promedio_ms) = some 500 ∧
    some ((500 : ℚ)) ≠ some ((0 * ((2 : ℚ) - 1) + 500) / 2) := by
  constructor
  · rfl
  · intro h
    rw [Option.some_inj] at h
    norm_num at h

/-- C9 (amended): whenever a non-zero latency sample is recorded for an
existing daily row whose stored average is non-null and non-zero, and the
post-increment responded count `n` is positive, the new average is
`(oldAvg*(n-1) + newSample)/n`; in particular a prior average of 100 ms over
4 responses followed by a 500 ms sample yields 180.  (A zero sample is
ignored and a stored average of exactly zero is overwritten by the sample:
Python truthiness, see `claim9_counterexample`.) -/
theorem claim9_running_average
    (stats : EstadisticasBot) (d : StatsDelta) (a x : ℚ)
    (havg : stats.tiempo_respuesta_promedio_ms = some a) (ha : a ≠ 0)
    (hrt : d.response_time_ms = some x) (hx : x ≠ 0)
    (htot : stats.mensajes_respondidos + d.mensajes_respondidos ≠ 0) :
    update_statistics true d (some stats) =
      some
        { mensajes_recibidos := stats.mensajes_recibidos + d.mensajes_recibidos
          mensajes_respondidos :=
            stats.mensajes_respondidos + d.mensajes_respondidos
          citas_creadas := stats.citas_creadas + d.citas_creadas
          citas_modificadas := stats.citas_modificadas + d.citas_modificadas
          citas_canceladas := stats.citas_canceladas + d.citas_canceladas
          transferencias_humano :=
            stats.transferencias_humano + d.transferencias_humano
          errores := stats.errores + d.errores
          tiempo_respuesta_promedio_ms :=
            some ((a * (((stats.mensajes_respondidos +
              d.mensajes_respondidos : ℕ) : ℚ) - 1) + x) /
              ((stats.mensajes_respondidos + d.mensajes_respondidos : ℕ) : ℚ)) }
      ∧
    update_statistics true
        { mensajes_respondidos := 1, response_time_ms := some 500 }
        (some ⟨10, 4, 0, 0, 0, 0, 0, some 100⟩) =
      some ⟨10, 5, 0, 0, 0, 0, 0, some 180⟩ := by
  constructor
  · unfold update_statistics
    dsimp only
    rw [hrt, havg]
    simp [pyTruthyQ, hx, ha, htot]
  · unfold update_statistics
    dsimp only
    have h500 : pyTruthyQ (some (500 : ℚ)) = true := by
      simp [pyTruthyQ]
    have h100 : pyTruthyQ (some (100 : ℚ)) = true := by
      simp [pyTruthyQ]
    rw [h500, h100]
    norm_num

/-- Witness for `claim9_running_average` at the concrete 100 ms / 4
responses / 500 ms instance of the claim. -/
theorem claim9_witness :
    update_statistics true
        { mensajes_respondidos := 1, response_time_ms := some 500 }
        (some ⟨10, 4, 0, 0, 0, 0, 0, some 100⟩) =
      some ⟨10, 5, 0, 0, 0, 0, 0, some 180⟩ :=
  (claim9_running_average ⟨10, 4, 0, 0, 0, 0, 0, some 100⟩
    { mensajes_respondidos := 1, response_time_ms := some 500 }
    100 500 rfl (by norm_num) rfl (by norm_num) (by decide)).2

/-! ## C1 — debounce coalescing -/

/-- C1: feeding N accepted messages (each within the debounce delay, i.e.
before any timer fires) buffers all of them, re-schedules the timer on every
message (the generation advances N times, and firing any superseded
generation is a no-op — the cancelled task does nothing), and the single
live firing invokes the agent exactly once with the whitespace-joined
concatenation of all N contents in arrival order, sends one reply, and
leaves the buffer empty with the lock released. -/
theorem claim1_debounce_coalescing
    (env : ProcEnv) (keywords : List String) (cs : List String)
    (s : ProcState) (hne : cs ≠ [])
    (hok : ∀ c ∈ cs, c ≠ "" ∧ checkHumanKeywords keywords c = false)
    (hactive : recordActive s) (hpend : s.pending = [])
    (hlock : s.lock = false)
    (hff : env.frameFault = false) (hsend : env.sendOk = true) :
    (runArrivals env keywords cs s).timerGen = s.timerGen + cs.length ∧
    (∀ (env2 : ProcEnv) (g : ℕ),
        g ≠ (runArrivals env keywords cs s).timerGen →
        fire env2 g (runArrivals env keywords cs s) =
          runArrivals env keywords cs s) ∧
    (fire env (runArrivals env keywords cs s).timerGen
        (runArrivals env keywords cs s)).agentCalls =
      s.agentCalls ++ [String.intercalate " " cs] ∧
    (fire env (runArrivals env keywords cs s).timerGen
        (runArrivals env keywords cs s)).sent = s.sent ++ [env.reply] ∧
    (fire env (runArrivals env keywords cs s).timerGen
        (runArrivals env keywords cs s)).pending = [] ∧
    (fire env (runArrivals env keywords cs s).timerGen
        (runArrivals env keywords cs s)).lock = false := by
  obtain ⟨hp, hg, hl, hac, hse, _, _, _⟩ :=
    runArrivals_spec env keywords cs s hok hactive
  obtain ⟨c, cs', hcs⟩ : ∃ c cs', cs = c :: cs' := by
    cases cs with
    | nil => exact absurd rfl hne
    | cons c cs' => exact ⟨c, cs', rfl⟩
  have hp' : (runArrivals env keywords cs s).pending = c :: cs' := by
    rw [hp, hpend, hcs]
    rfl
  have hl' : (runArrivals env keywords cs s).lock = false := by
    rw [hl, hlock]
  have hfire := fire_success env (runArrivals env keywords cs s).timerGen
    (runArrivals env keywords cs s) c cs' rfl hl' hp' hff hsend
  refine ⟨hg, fun env2 g hgne => fire_stale env2 g _ hgne, ?_, ?_, ?_, ?_⟩
  · rw [hfire]
    dsimp only
    rw [hac, hcs]
  · rw [hfire]
    dsimp only
    rw [hse]
  · rw [hfire]
  · rw [hfire]

/-- Witness for `claim1_debounce_coalescing`: a three-message burst "hola",
"quiero", "una cita" produces exactly one agent call "hola quiero una cita". -/
theorem claim1_witness :
    (fire {} (runArrivals {} ["humano"] ["hola", "quiero", "una cita"]
        initialProcState).timerGen
      (runArrivals {} ["humano"] ["hola", "quiero", "una cita"]
        initialProcState)).agentCalls = ["hola quiero una cita"] := by
  have h := claim1_debounce_coalescing {} ["humano"]
    ["hola", "quiero", "una cita"] initialProcState (by decide)
    (by decide) (by decide) rfl rfl rfl rfl
  rw [h.2.2.1]
  rfl

/-! ## C2 — duplicate debounce firings and the processing lock -/

/-- C2: a firing of `_delayed_process` that finds the per-conversation lock
already held returns at once without touching the shared state (no agent
call, no send, buffer unchanged); and for two firings for the same
conversation interleaved under any schedule from a state with a non-empty
buffer and a free lock, once both have returned there was exactly one agent
call (with the whitespace-joined batch), exactly one send, the buffer is
empty, and exactly one of the two firings is the one that processed. -/
theorem claim2_lock_mutual_exclusion :
    (∀ (reply : String) (latency : ℚ) (sh : FShared), sh.lock = true →
        stepFiring reply latency sh .start = (sh, .doneAbandoned)) ∧
    (∀ (P : List String) (reply : String) (latency : ℚ)
        (ctx0 : Option (List CtxMsg)) (st0 : Option EstadisticasBot)
        (sched : List Bool), P ≠ [] →
        (runSched reply latency sched (initFGlobal P ctx0 st0)).a.isDone =
          true →
        (runSched reply latency sched (initFGlobal P ctx0 st0)).b.isDone =
          true →
        (runSched reply latency sched (initFGlobal P ctx0 st0)).sh.pending =
          [] ∧
        (runSched reply latency sched (initFGlobal P ctx0 st0)).sh.agentCalls
          = [String.intercalate " " P] ∧
        (runSched reply latency sched (initFGlobal P ctx0 st0)).sh.sent =
          [reply] ∧
        (((runSched reply latency sched (initFGlobal P ctx0 st0)).a =
              .doneProcessed ∧
            (runSched reply latency sched (initFGlobal P ctx0 st0)).b ≠
              .doneProcessed)
          ∨ ((runSched reply latency sched (initFGlobal P ctx0 st0)).b =
              .doneProcessed ∧
            (runSched reply latency sched (initFGlobal P ctx0 st0)).a ≠
              .doneProcessed))) := by
  constructor
  · intro reply latency sh h
    simp [stepFiring, h]
  · intro P reply latency ctx0 st0 sched hP hda hdb
    exact raceInv_final P reply _
      (raceInv_run P hP reply latency sched _
        (Or.inl ⟨rfl, rfl, rfl, rfl, rfl, rfl⟩)) hda hdb

/-- Witness for `claim2_lock_mutual_exclusion`: a held lock abandons the
firing untouched, and the schedule that runs firing `a` to completion and
then firing `b` ends with one agent call on the batch and an empty buffer. -/
theorem claim2_witness :
    stepFiring "ok" 1 ⟨true, ["hola"], [], [], none, none⟩ .start =
      (⟨true, ["hola"], [], [], none, none⟩, .doneAbandoned) ∧
    (runSched "ok" 1
        [true, true, true, true, true, true, true, true, false, false, false]
        (initFGlobal ["hola", "mundo"] none none)).sh.agentCalls =
      ["hola mundo"] :=
  ⟨claim2_lock_mutual_exclusion.1 "ok" 1 ⟨true, ["hola"], [], [], none, none⟩
      rfl,
   (claim2_lock_mutual_exclusion.2 ["hola", "mundo"] "ok" 1 none none
      [true, true, true, true, true, true, true, true, false, false, false]
      (by decide) (by decide) (by decide)).2.1⟩

/-! ## C3 — handoff does not consume the buffered content (corrected) -/

/-- C3 as stated is refuted: a handoff keyword neither clears the pending
queue nor cancels the already-scheduled debounce task, and
`_delayed_process` never re-checks `bot_activo`; so after "hola" is buffered
and "quiero hablar con un humano" pauses the bot, the still-live firing of
generation 1 drains the buffer and invokes the agent with "hola". -/
theorem claim3_counterexample :
    ((handleMessage {} ["humano"]
        { extracted := some "quiero hablar con un humano", arrivedAt := 2 }
        (handleMessage {} ["humano"]
          { extracted := some "hola", arrivedAt := 1 }
          initialProcState)).record.map ConversacionChatwoot.bot_activo)
      = some false ∧
    (handleMessage {} ["humano"]
        { extracted := some "quiero hablar con un humano", arrivedAt := 2 }
        (handleMessage {} ["humano"]
          { extracted := some "hola", arrivedAt := 1 }
          initialProcState)).pending = ["hola"] ∧
    (fire {} 1
        (handleMessage {} ["humano"]
          { extracted := some "quiero hablar con un humano", arrivedAt := 2 }
          (handleMessage {} ["humano"]
            { extracted := some "hola", arrivedAt := 1 }
            initialProcState))).agentCalls = ["hola"] := by
  decide

/-- C3 (amended): when a handoff keyword triggers, the triggering message
itself is never buffered and never reaches the agent, and the bot is paused;
but the content already buffered for the conversation is NOT consumed: the
pending queue and the timer generation are untouched, and the still-scheduled
debounce firing subsequently drains that buffered content into an agent
call. -/
theorem claim3_handoff_leaves_buffer
    (env : ProcEnv) (keywords : List String) (m : InboundMessage)
    (s : ProcState) (content : String)
    (hkind : m.messageType = "incoming") (hpriv : m.privateNote = false)
    (hsender : m.senderType ≠ some "user")
    (hactive : (upsertConversation m s).bot_activo = true)
    (hrate : m.rateAllowed = true) (hext : m.extracted = some content)
    (hc : content ≠ "") (hkw : checkHumanKeywords keywords content = true) :
    (handleMessage env keywords m s).pending = s.pending ∧
    (handleMessage env keywords m s).timerGen = s.timerGen ∧
    (handleMessage env keywords m s).lock = s.lock ∧
    (handleMessage env keywords m s).agentCalls = s.agentCalls ∧
    ((handleMessage env keywords m s).record.map
      ConversacionChatwoot.bot_activo) = some false ∧
    (∀ (env2 : ProcEnv) (p : String) (ps : List String),
        s.pending = p :: ps → s.lock = false → env2.frameFault = false →
        env2.sendOk = true →
        (fire env2 (handleMessage env keywords m s).timerGen
            (handleMessage env keywords m s)).agentCalls =
          s.agentCalls ++ [String.intercalate " " (p :: ps)]) := by
  have heq := handleMessage_keyword env keywords m s content hkind hpriv
    hsender hactive hrate hext hc hkw
  refine ⟨by rw [heq], by rw [heq], by rw [heq], by rw [heq], by rw [heq]; rfl,
    ?_⟩
  intro env2 p ps hp hl hff hsend
  have hp' : (handleMessage env keywords m s).pending = p :: ps := by
    rw [heq]
    exact hp
  have hl' : (handleMessage env keywords m s).lock = false := by
    rw [heq]
    exact hl
  have hfire := fire_success env2 (handleMessage env keywords m s).timerGen
    (handleMessage env keywords m s) p ps rfl hl' hp' hff hsend
  rw [hfire]
  dsimp only
  rw [heq]

/-- Witness for `claim3_handoff_leaves_buffer` at the counterexample trace. -/
theorem claim3_witness :
    (fire {}
        (handleMessage {} ["humano"]
          { extracted := some "quiero hablar con un humano", arrivedAt := 2 }
          (handleMessage {} ["humano"]
            { extracted := some "hola", arrivedAt := 1 }
            initialProcState)).timerGen
        (handleMessage {} ["humano"]
          { extracted := some "quiero hablar con un humano", arrivedAt := 2 }
          (handleMessage {} ["humano"]
            { extracted := some "hola", arrivedAt := 1 }
            initialProcState))).agentCalls = ["hola"] := by
  have h := claim3_handoff_leaves_buffer {} ["humano"]
    { extracted := some "quiero hablar con un humano", arrivedAt := 2 }
    (handleMessage {} ["humano"] { extracted := some "hola", arrivedAt := 1 }
      initialProcState)
    "quiero hablar con un humano" rfl rfl (by decide) (by decide) rfl rfl
    (by decide) (by decide)
  exact h.2.2.2.2.2 {} "hola" [] (by decide) (by decide) rfl rfl

/-! ## C5 — exceptions during Processing -/

/-- C5: every exception raised inside the Processing block of
`_delayed_process` (merge, agent call, send, context or statistics update)
is caught rather than propagated — the firing always returns normally, as
`fire`'s totality models — the `finally` still releases the
per-conversation lock, and the daily error statistic is incremented (given
the statistics store itself is reachable, `env.statsOk = true`).  In the
source the statistics call of the success path raises `TypeError`
unconditionally (mismatched keyword arguments,
message_processor.py:248-252), so every firing that claims a non-empty
batch — whether the agent, the send and the context write succeed, whether
an HTTP error was swallowed inside the send, or whether an exception
propagated from earlier in the block (`frameFault`) — ends in the
`except Exception` handler with the lock released and `errores`
incremented; the statement below quantifies over all these fault
environments at once. -/
theorem claim5_processing_exceptions
    (env : ProcEnv) (gen : ℕ) (s : ProcState) (p : String) (ps : List String)
    (st : EstadisticasBot)
    (hg : gen = s.timerGen) (hl : s.lock = false) (hp : s.pending = p :: ps)
    (hstOk : env.statsOk = true) (hstats : s.stats = some st) :
    (fire env gen s).lock = false ∧
    (fire env gen s).stats = some { st with errores := st.errores + 1 } := by
  have herr : update_statistics env.statsOk ⟨0, 0, 0, 0, 0, 0, 1, none⟩
      s.stats = some { st with errores := st.errores + 1 } := by
    rw [hstats, hstOk]
    unfold update_statistics
    simp [pyTruthyQ]
  cases hff : env.frameFault with
  | true =>
      have hfire := fire_frame_fault env gen s p ps hg hl hp hff
      rw [hfire]
      exact ⟨rfl, herr⟩
  | false =>
      cases hsend : env.sendOk with
      | true =>
          have hfire := fire_success env gen s p ps hg hl hp hff hsend
          rw [hfire]
          exact ⟨rfl, herr⟩
      | false =>
          have hfire := fire_send_failed env gen s p ps hg hl hp hff hsend
          rw [hfire]
          exact ⟨rfl, herr⟩

/-- Witness for `claim5_processing_exceptions`: with a swallowed send
failure and with a frame-level fault alike, the firing releases the lock
and increments the error counter. -/
theorem claim5_witness :
    ((fire { sendOk := false } 0
        { initialProcState with
          pending := ["hola"]
          stats := some ⟨0, 0, 0, 0, 0, 0, 0, none⟩ }).lock = false ∧
      (fire { sendOk := false } 0
        { initialProcState with
          pending := ["hola"]
          stats := some ⟨0, 0, 0, 0, 0, 0, 0, none⟩ }).stats =
        some ⟨0, 0, 0, 0, 0, 0, 1, none⟩) ∧
    (fire { frameFault := true } 0
        { initialProcState with
          pending := ["hola"]
          stats := some ⟨0, 0, 0, 0, 0, 0, 0, none⟩ }).stats =
      some ⟨0, 0, 0, 0, 0, 0, 1, none⟩ :=
  ⟨claim5_processing_exceptions { sendOk := false } 0
      { initialProcState with
        pending := ["hola"]
        stats := some ⟨0, 0, 0, 0, 0, 0, 0, none⟩ } "hola" []
      ⟨0, 0, 0, 0, 0, 0, 0, none⟩ rfl rfl rfl rfl rfl,
   (claim5_processing_exceptions { frameFault := true } 0
      { initialProcState with
        pending := ["hola"]
        stats := some ⟨0, 0, 0, 0, 0, 0, 0, none⟩ } "hola" []
      ⟨0, 0, 0, 0, 0, 0, 0, none⟩ rfl rfl rfl rfl rfl).2⟩


/-! ## C7 — reconciliation create case -/

/-- C7: a timed external event whose id matches no local appointment is
synthesized into exactly one new appointment by the create path of the sync
run; the summary is split at the LAST occurrence of " - " (trailing segment
is the client, leading comma-separated segment the services) and phone and
price come from the labelled description lines.  In particular
"Corte, Tinte - Ana Pérez" with "Teléfono: 5551234567" and "Precio: $500"
yields services ["Corte","Tinte"], client "Ana Pérez", phone "5551234567"
and price 500; and a summary with two separators splits at the last one. -/
theorem claim7_reconciliation_create
    (stylists : List Estilista) (e : GCalEvent) (db : List Cita)
    (eid : String) (hid : e.id = some eid) (hne : eid ≠ "")
    (hmiss : ∀ a ∈ db, citaKey a ≠ some eid) :
    (syncRun stylists [e] db).created =
      (create_appointment_from_event stylists e).toList ∧
    (syncRun stylists [e] db).updatedCount = 0 ∧
    create_appointment_from_event [] anaEvent = some anaCita ∧
    (syncRun [] [anaEvent] []).created = [anaCita] ∧
    (pyRSplitOnce " - " "Corte - Peinado - María") =
      some ("Corte - Peinado", "María") := by
  have hkey : eventKey e = some eid := by
    simp [eventKey, hid, pyTruthyStr, hne]
  have hany : (db.any fun a => citaKey a = some eid) = false := by
    rw [List.any_eq_false]
    intro a ha
    simp [hmiss a ha]
  refine ⟨?_, ?_, by decide, by decide, by decide⟩
  · cases hc : create_appointment_from_event stylists e <;>
      simp [syncRun, syncEventStep, hkey, hany, hc]
  · cases hc : create_appointment_from_event stylists e <;>
      simp [syncRun, syncEventStep, hkey, hany, hc]

/-- Witness for `claim7_reconciliation_create` at the Ana Pérez event
against an empty local window. -/
theorem claim7_witness :
    (syncRun [] [anaEvent] []).created =
      (create_appointment_from_event [] anaEvent).toList :=
  (claim7_reconciliation_create [] anaEvent [] "evt123" rfl (by decide)
    (by simp)).1

end BotWhats
